import Mathlib

/-!
Verification of the Lidarr-Hunter selection-and-pacing engine.

The definitions below are a shallow embedding of the Python sources:
the per-item action workflow (refresh, search, fallback) of
src/missing/artist.py and src/missing/album.py, the selection loop that is
repeated almost verbatim in src/missing/artist.py, src/missing/album.py,
src/huntarr.py, src/upgrade/track.py, src/upgrade/album.py and
src/upgrade/artist.py, the quality evaluators of src/upgrade/track.py and
src/upgrade/album.py, and the state store of src/main.py.

Remote calls are abstracted by oracles: an acknowledgement oracle for the
POST command endpoints (a command is acknowledged when the JSON response
carries an "id" key) and, at the loop level, a per-candidate outcome record.
The random index drawn by the rejection-sampling loop
(while True: idx = random.randint(...); if idx not in used_indices: break)
is abstracted by a stream of raw draws: the loop only ever leaves the
sampling loop with an in-range index that is not yet used, so the model
takes the raw draw when it is fresh and in range and otherwise falls back
to the lowest unused index; every behaviour reachable by the Python code is
obtained for some draw stream, and the fallback branch is never taken for a
draw that the Python code could have accepted.
-/

namespace Huntarr

/-- Outcome record for one candidate attempt: whether the RefreshArtist
command, the primary search command, and (where defined) the fallback
search command would be acknowledged for this candidate. -/
structure ItemResult where
  refreshAck : Bool
  searchAck : Bool
  fallbackAck : Bool
deriving DecidableEq, Repr

/-- Counting rule of the missing flows (src/missing/artist.py line 135,
src/missing/album.py line 113): processed_count += 1 is reached on every
attempt that gets past the refresh step, regardless of search outcome;
a failed refresh jumps back to the loop head via continue. -/
def missingCounts (r : ItemResult) : Bool := r.refreshAck

/-- Counting rule of the upgrade flows (src/upgrade/track.py line 153,
src/upgrade/album.py line 217, src/upgrade/artist.py line 222):
processed_count += 1 only when the search command is acknowledged,
and the search is only issued after an acknowledged refresh. -/
def upgradeCounts (r : ItemResult) : Bool := r.refreshAck && r.searchAck

/-- Recording rule of src/missing/artist.py lines 115-131: the artist id is
appended to newly_processed when, after an acknowledged refresh, the
MissingAlbumSearch command or the fallback AlbumSearch command is
acknowledged. -/
def missingArtistRecords (r : ItemResult) : Bool :=
  r.refreshAck && (r.searchAck || r.fallbackAck)

/-- The specification notion of Success for the per-item workflow
(spec section 4.3): some command, primary or fallback, is acknowledged
after an acknowledged refresh. -/
def specSuccess (r : ItemResult) : Bool :=
  r.refreshAck && (r.searchAck || r.fallbackAck)

/-- Recording rule of the flows that keep no dedup list
(src/missing/album.py, src/huntarr.py, the upgrade modules). -/
def noRecords (_ : ItemResult) : Bool := false

/-- State of one selection pass: the selected candidate indices in selection
order (used_indices as a set is exactly the members of this list), the
processed counter, and the list of recorded indices (newly_processed of
src/missing/artist.py, kept as candidate indices). -/
structure PassState where
  order : List Nat
  processed : Nat
  newly : List Nat
deriving DecidableEq, Repr

/-- The quota guard at the head of the selection loop.  Two variants occur
in the sources: src/missing/artist.py line 76 breaks when
processed_count >= HUNT_MISSING_ITEMS (strictGuard = false); all the other
loops (src/missing/album.py line 69, src/huntarr.py lines 182, 293, 404,
472, src/upgrade/track.py line 110, src/upgrade/album.py line 176,
src/upgrade/artist.py line 177) break when
MAX_ITEMS > 0 and processed_count >= MAX_ITEMS (strictGuard = true). -/
def quotaReached (strictGuard : Bool) (quota : Int) (processed : Nat) : Bool :=
  match strictGuard with
  | true => decide (0 < quota) && decide (quota ≤ (processed : Int))
  | false => decide (quota ≤ (processed : Int))

/-- Sequential selection: idx_candidates = [i for i in range(n) if i not in
used_indices]; idx = idx_candidates[0], with the empty case signalled by
none (the loop breaks there). -/
def seqFirst (used : List Nat) (n : Nat) : Option Nat :=
  ((List.range n).filter (fun i => !used.contains i)).head?

/-- One selection step.  In random mode with more than one candidate the
Python code rejection-samples random.randint(0, n-1) until the index is
unused; raw is the abstracted draw, taken when the Python code could have
accepted it and replaced by the lowest unused index otherwise (see the file
header).  Otherwise the lowest unused index is picked. -/
def selectIdx (randomOrder : Bool) (raw : Nat) (used : List Nat) (n : Nat) : Option Nat :=
  if randomOrder && decide (1 < n) then
    if raw < n && !used.contains raw then some raw else seqFirst used n
  else
    seqFirst used n

/-- Effect of one loop iteration on the pass state: mark the index used,
bump the processed counter when the counting rule fires, record the index
when the recording rule fires. -/
def stepState (counts records : ItemResult → Bool) (act : Nat → ItemResult)
    (idx : Nat) (s : PassState) : PassState :=
  { order := s.order ++ [idx]
    processed := s.processed + (if counts (act idx) then 1 else 0)
    newly := s.newly ++ (if records (act idx) then [idx] else []) }

/-- The selection loop, fuel-indexed.  Every iteration of the Python loop
marks one fresh index used, so from the empty state fuel n + 1 is enough to
reach a state where one of the two break guards holds
(runPassAux_fuel_stable below makes this precise). -/
def runPassAux (strictGuard : Bool) (quota : Int) (randomOrder : Bool) (n : Nat)
    (act : Nat → ItemResult) (counts records : ItemResult → Bool) (raws : Nat → Nat) :
    Nat → PassState → PassState
  | 0, s => s
  | fuel + 1, s =>
    if quotaReached strictGuard quota s.processed then s
    else if n ≤ s.order.length then s
    else
      match selectIdx randomOrder (raws s.order.length) s.order n with
      | none => s
      | some idx =>
          runPassAux strictGuard quota randomOrder n act counts records raws fuel
            (stepState counts records act idx s)

/-- One selection pass over n candidates, started from the empty state. -/
def runPass (strictGuard : Bool) (quota : Int) (randomOrder : Bool) (n : Nat)
    (act : Nat → ItemResult) (counts records : ItemResult → Bool)
    (raws : Nat → Nat) : PassState :=
  runPassAux strictGuard quota randomOrder n act counts records raws (n + 1) ⟨[], 0, []⟩

/-! Command-level view of the per-item workflow. -/

/-- The POST command payloads issued by src/api.py and src/huntarr.py. -/
inductive Command where
  | refreshArtist (artistId : Int)
  | missingAlbumSearch (artistId : Int)
  | albumSearchByAlbum (albumId : Int)
  | albumSearchByArtist (artistId : Int)
  | trackSearch (trackId : Int)
deriving DecidableEq, Repr

/-- Result of one per-item workflow: the command payloads issued in order,
whether the processed counter is bumped for this attempt, and whether a
search (primary or fallback) was acknowledged. -/
structure AttemptResult where
  commands : List Command
  counted : Bool
  success : Bool
deriving DecidableEq, Repr

/-- Per-item workflow of src/missing/artist.py lines 105-138, driven by an
acknowledgement oracle (ack c is true when the POST of c returns a JSON
object with an "id" key).  A failed refresh skips the search entirely and
does not bump processed_count; an acknowledged refresh is followed by
MissingAlbumSearch, with one fallback artist-level AlbumSearch when the
primary is unacknowledged, and processed_count is bumped either way. -/
def artistAttempt (ack : Command → Bool) (artistId : Int) : AttemptResult :=
  if !ack (.refreshArtist artistId) then
    ⟨[.refreshArtist artistId], false, false⟩
  else if ack (.missingAlbumSearch artistId) then
    ⟨[.refreshArtist artistId, .missingAlbumSearch artistId], true, true⟩
  else
    ⟨[.refreshArtist artistId, .missingAlbumSearch artistId,
        .albumSearchByArtist artistId],
      true, ack (.albumSearchByArtist artistId)⟩

/-- Per-item workflow of src/missing/album.py lines 95-115: refresh, then a
single album-specific AlbumSearch with no fallback command; processed_count
is bumped whenever the refresh was acknowledged, regardless of the search
outcome. -/
def albumAttempt (ack : Command → Bool) (artistId albumId : Int) : AttemptResult :=
  if !ack (.refreshArtist artistId) then
    ⟨[.refreshArtist artistId], false, false⟩
  else
    ⟨[.refreshArtist artistId, .albumSearchByAlbum albumId], true,
      ack (.albumSearchByAlbum albumId)⟩

/-! The artist-missing entry point of src/missing/artist.py. -/

/-- The fields of an artist record that process_artists_missing inspects
(id, monitored, statistics.trackCount, statistics.trackFileCount, with the
Python .get defaults already applied). -/
structure Artist where
  id : Int
  monitored : Bool
  trackCount : Int
  trackFileCount : Int
deriving DecidableEq, Repr

/-- Fallback artist record used for out-of-range indexing in the model
(never reached: recorded indices are in range). -/
def defaultArtist : Artist := ⟨0, false, 0, 0⟩

/-- The candidate filter of src/missing/artist.py lines 42-56: monitored
(only when MONITORED_ONLY), incomplete (trackCount > trackFileCount), and
not already in the processed_artists dedup list. -/
def incompleteArtists (monitoredOnly : Bool) (processed_artists : List Int)
    (artists : List Artist) : List Artist :=
  if monitoredOnly then
    artists.filter (fun a =>
      a.monitored && decide (a.trackFileCount < a.trackCount) &&
        !processed_artists.contains a.id)
  else
    artists.filter (fun a =>
      decide (a.trackFileCount < a.trackCount) && !processed_artists.contains a.id)

/-- src/missing/artist.py process_artists_missing.  quota is
HUNT_MISSING_ITEMS; artistsFetch is the result of get_artists_json, with
none covering both a failed fetch and an empty artist list (Python tests
if not artists); act i is the outcome record of the per-item workflow for
candidate index i of the filtered list.  Returns the updated
processed_artists list (line 141: processed_artists + newly_processed);
quota <= 0 returns the input unchanged (lines 29-32), as do a failed fetch
(lines 35-39) and an empty candidate list (lines 58-65). -/
def process_artists_missing (quota : Int) (randomOrder monitoredOnly : Bool)
    (processed_artists : List Int) (artistsFetch : Option (List Artist))
    (act : Nat → ItemResult) (raws : Nat → Nat) : List Int :=
  if quota ≤ 0 then processed_artists
  else
    match artistsFetch with
    | none => processed_artists
    | some artists =>
      if (incompleteArtists monitoredOnly processed_artists artists).isEmpty then
        processed_artists
      else
        processed_artists ++
          ((runPass false quota randomOrder
              (incompleteArtists monitoredOnly processed_artists artists).length act
              missingCounts missingArtistRecords raws).newly.map
            (fun i =>
              ((incompleteArtists monitoredOnly processed_artists artists).getD i
                defaultArtist).id))

/-! Quality evaluators. -/

/-- The fields of a quality profile that the evaluators inspect; cutoff is
some c when the profile carries an integer cutoff c and none when the key
is absent or not an integer (the isinstance guard in the sources). -/
structure QualityProfile where
  cutoff : Option Int
deriving DecidableEq, Repr

/-- The profiles dictionary built by src/api.py get_quality_profiles,
keyed by profile id; lookup of the first binding models dict access. -/
def lookupProfile (pid : Int) (profiles : List (Int × QualityProfile)) :
    Option QualityProfile :=
  (profiles.find? (fun p => p.fst == pid)).map (fun p => p.snd)

/-- The fields of a track record that track_needs_upgrade inspects.
qualityProfileId is none when the key is absent (Python .get returns None);
qualityId is the value of quality.quality.id with the .get default 0
applied, and none when that value is present but not an integer. -/
structure TrackRec where
  hasFile : Bool
  qualityProfileId : Option Int
  qualityId : Option Int
deriving DecidableEq, Repr

/-- src/upgrade/track.py track_needs_upgrade (lines 17-45).  The pid == 0
test models Python truthiness: not profile_id is true for both None and 0. -/
def track_needs_upgrade (track : TrackRec)
    (profiles : List (Int × QualityProfile)) : Bool :=
  if !track.hasFile then false
  else
    match track.qualityProfileId with
    | none => false
    | some pid =>
      if pid == 0 then false
      else
        match lookupProfile pid profiles with
        | none => false
        | some profile =>
          match profile.cutoff, track.qualityId with
          | some c, some q => decide (q < c)
          | _, _ => false

/-- The fields of an album record that album_needs_upgrade inspects.
qualityPresent models the truthiness test if not album_quality after
album.get("quality", {}); qualityId is quality.quality.id with default 0,
none when present but not an integer. -/
structure AlbumRec where
  monitored : Bool
  sizeOnDisk : Int
  trackCount : Int
  trackFileCount : Int
  qualityCutoffNotMet : Bool
  qualityProfileId : Option Int
  qualityPresent : Bool
  qualityId : Option Int
deriving DecidableEq, Repr

/-- src/upgrade/album.py album_needs_upgrade (lines 34-82), with the
module-level MONITORED_ONLY flag passed explicitly.  Note the order of the
tests in the source: the qualityCutoffNotMet flag is consulted before the
profile id is resolved. -/
def album_needs_upgrade (monitoredOnly : Bool) (album : AlbumRec)
    (profiles : List (Int × QualityProfile)) : Bool :=
  if monitoredOnly && !album.monitored then false
  else if !(decide (0 < album.sizeOnDisk)) then false
  else if decide (album.trackFileCount < album.trackCount) then false
  else if album.qualityCutoffNotMet then true
  else
    match album.qualityProfileId with
    | none => false
    | some pid =>
      if pid == 0 then false
      else
        match lookupProfile pid profiles with
        | none => false
        | some profile =>
          if !album.qualityPresent then false
          else
            match profile.cutoff, album.qualityId with
            | some c, some q => decide (q < c)
            | _, _ => false

/-! State store (src/main.py). -/

/-- A timestamp value as it sits in the loaded state dictionary: either a
datetime object (the successful-parse path converts with fromisoformat,
line 34) or an ISO string (the fresh-state paths of load_state store
datetime.now().isoformat(), lines 27 and 41).  The payload is the instant
in seconds. -/
inductive TimeVal where
  | str (t : Int)
  | dt (t : Int)
deriving DecidableEq, Repr

/-- The in-memory state dictionary of src/main.py. -/
structure AppState where
  processed_artists : List Int
  processed_albums : List Int
  last_reset_time : TimeVal
deriving DecidableEq, Repr

/-- The on-disk state file content (last_reset_time as the instant encoded
by its ISO string). -/
structure StoredState where
  processed_artists : List Int
  processed_albums : List Int
  last_reset_time : Int
deriving DecidableEq, Repr

/-- src/main.py load_state (lines 21-42).  fileExists is the
os.path.exists test; parseOk is whether open, json.load and fromisoformat
all succeed on the file content.  Both fresh-state paths store the current
time as an ISO string, while the successful path converts to a datetime. -/
def load_state (fileExists parseOk : Bool) (stored : StoredState)
    (now : Int) : AppState :=
  if !fileExists then ⟨[], [], .str now⟩
  else if parseOk then
    ⟨stored.processed_artists, stored.processed_albums, .dt stored.last_reset_time⟩
  else ⟨[], [], .str now⟩

/-- Python subtraction datetime.now() - last_reset: defined on a datetime,
a TypeError on a string (datetime minus str is unsupported). -/
def dtSub (now : Int) : TimeVal → Except String Int
  | .dt t => .ok (now - t)
  | .str _ => .error "TypeError: unsupported operand type for datetime minus str"

/-- src/main.py check_reset_state (lines 55-71).  intervalHours is
STATE_RESET_INTERVAL_HOURS; timedelta(hours=h) is h * 3600 seconds.  The
error case surfaces the TypeError that Python raises out of the
subtraction on line 65 when last_reset_time is a string. -/
def check_reset_state (intervalHours now : Int) (s : AppState) :
    Except String AppState :=
  if intervalHours ≤ 0 then .ok s
  else
    match dtSub now s.last_reset_time with
    | .error e => .error e
    | .ok elapsed =>
      if 3600 * intervalHours < elapsed then .ok ⟨[], [], .dt now⟩
      else .ok s

/-! Helper lemmas about the selection step. -/

theorem contains_eq_mem (l : List Nat) (a : Nat) : l.contains a = true ↔ a ∈ l := by
  simp [List.contains, List.elem_iff]

theorem seqFirst_eq_some {used : List Nat} {n idx : Nat}
    (h : seqFirst used n = some idx) : idx < n ∧ idx ∉ used := by
  unfold seqFirst at h
  have hmem : idx ∈ (List.range n).filter (fun i => !used.contains i) := by
    cases hl : (List.range n).filter (fun i => !used.contains i) with
    | nil => rw [hl] at h; cases h
    | cons y ys =>
        rw [hl] at h
        simp only [List.head?_cons, Option.some.injEq] at h
        subst h
        exact List.mem_cons_self _ _
  rcases List.mem_filter.mp hmem with ⟨hrange, hpred⟩
  refine ⟨List.mem_range.mp hrange, fun hin => ?_⟩
  have hc := (contains_eq_mem used idx).mpr hin
  simp [hc] at hpred
  exact hpred hin

theorem selectIdx_eq_some {ro : Bool} {raw : Nat} {used : List Nat} {n idx : Nat}
    (h : selectIdx ro raw used n = some idx) : idx < n ∧ idx ∉ used := by
  unfold selectIdx at h
  split at h
  · split at h
    · rename_i hcond
      simp only [Option.some.injEq] at h
      obtain rfl := h
      simp only [Bool.and_eq_true, decide_eq_true_eq, Bool.not_eq_true'] at hcond
      refine ⟨hcond.1, fun hin => ?_⟩
      have hc := (contains_eq_mem used raw).mpr hin
      rw [hcond.2] at hc
      cases hc
    · exact seqFirst_eq_some h
  · exact seqFirst_eq_some h

theorem seqFirst_isSome {used : List Nat} {n : Nat}
    (hlen : used.length < n) : (seqFirst used n).isSome := by
  unfold seqFirst
  cases hl : (List.range n).filter (fun i => !used.contains i) with
  | cons y ys => simp
  | nil =>
      exfalso
      have hsub : List.range n ⊆ used := by
        intro i hi
        have := List.filter_eq_nil_iff.mp hl i hi
        simp only [Bool.not_eq_true', Bool.not_eq_false] at this
        exact (contains_eq_mem used i).mp this
      have := (List.subperm_of_subset (List.nodup_range n) hsub).length_le
      simp only [List.length_range] at this
      omega

theorem selectIdx_isSome (ro : Bool) (raw : Nat) {used : List Nat} {n : Nat}
    (hlen : used.length < n) : (selectIdx ro raw used n).isSome := by
  unfold selectIdx
  split
  · split
    · simp
    · exact seqFirst_isSome hlen
  · exact seqFirst_isSome hlen

/-! Loop invariants of the selection pass. -/

/-- Invariant of the selection loop: the selection order never repeats an
index, every selected index is in range, and the processed counter and the
recorded list are determined by the selection order and the per-candidate
outcomes. -/
def PassInv (n : Nat) (act : Nat → ItemResult) (counts records : ItemResult → Bool)
    (s : PassState) : Prop :=
  s.order.Nodup ∧ (∀ i ∈ s.order, i < n) ∧
    s.processed = s.order.countP (fun i => counts (act i)) ∧
    s.newly = s.order.filter (fun i => records (act i))

theorem passInv_start (n : Nat) (act : Nat → ItemResult)
    (counts records : ItemResult → Bool) :
    PassInv n act counts records ⟨[], 0, []⟩ := by
  refine ⟨List.nodup_nil, ?_, rfl, rfl⟩
  intro i hi
  cases hi

theorem passInv_step {n : Nat} {act : Nat → ItemResult}
    {counts records : ItemResult → Bool} {s : PassState} {idx : Nat}
    (hs : PassInv n act counts records s) (hlt : idx < n) (hfresh : idx ∉ s.order) :
    PassInv n act counts records (stepState counts records act idx s) := by
  obtain ⟨hnd, hbound, hproc, hnew⟩ := hs
  refine ⟨?_, ?_, ?_, ?_⟩
  · exact List.nodup_append.mpr
      ⟨hnd, List.nodup_singleton idx, List.disjoint_singleton.mpr hfresh⟩
  · intro i hi
    rcases List.mem_append.mp hi with hi | hi
    · exact hbound i hi
    · simp only [List.mem_singleton] at hi
      exact hi ▸ hlt
  · simp only [stepState, List.countP_append, hproc]
    congr 1
    simp [List.countP_cons]
  · simp only [stepState, List.filter_append, hnew, List.filter_singleton]
    cases hrec : records (act idx) <;> simp

theorem runPassAux_inv {sg : Bool} {quota : Int} {ro : Bool} {n : Nat}
    {act : Nat → ItemResult} {counts records : ItemResult → Bool} {raws : Nat → Nat} :
    ∀ fuel s, PassInv n act counts records s →
      PassInv n act counts records
        (runPassAux sg quota ro n act counts records raws fuel s) := by
  intro fuel
  induction fuel with
  | zero => intro s hs; exact hs
  | succ f ih =>
      intro s hs
      rw [runPassAux]
      split
      · exact hs
      · split
        · exact hs
        · cases hsel : selectIdx ro (raws s.order.length) s.order n with
          | none => exact hs
          | some idx =>
              obtain ⟨hlt, hfresh⟩ := selectIdx_eq_some hsel
              exact ih _ (passInv_step hs hlt hfresh)

/-- Failing the quota guard means the processed counter is still strictly
below a positive quota (in either guard variant). -/
theorem quotaReached_false {sg : Bool} {quota : Int} {p : Nat}
    (hq : 0 < quota) (h : quotaReached sg quota p = false) : (p : Int) < quota := by
  cases sg with
  | false =>
      simp only [quotaReached, decide_eq_false_iff_not] at h
      omega
  | true =>
      simp only [quotaReached, Bool.and_eq_false_iff, decide_eq_false_iff_not] at h
      rcases h with h | h
      · omega
      · omega

theorem runPassAux_processed_le {sg : Bool} {quota : Int} {ro : Bool} {n : Nat}
    {act : Nat → ItemResult} {counts records : ItemResult → Bool} {raws : Nat → Nat}
    (hq : 0 < quota) :
    ∀ fuel s, s.processed ≤ quota.toNat →
      (runPassAux sg quota ro n act counts records raws fuel s).processed ≤ quota.toNat := by
  intro fuel
  induction fuel with
  | zero => intro s hs; exact hs
  | succ f ih =>
      intro s hs
      rw [runPassAux]
      split
      · exact hs
      · split
        · exact hs
        · cases hsel : selectIdx ro (raws s.order.length) s.order n with
          | none => exact hs
          | some idx =>
              rename_i hguard _
              apply ih
              have hlt : (s.processed : Int) < quota :=
                quotaReached_false hq (Bool.of_not_eq_true hguard)
              simp only [stepState]
              split <;> omega

theorem runPassAux_length_le {sg : Bool} {quota : Int} {ro : Bool} {n : Nat}
    {act : Nat → ItemResult} {counts records : ItemResult → Bool} {raws : Nat → Nat} :
    ∀ fuel s, s.order.length ≤ n →
      (runPassAux sg quota ro n act counts records raws fuel s).order.length ≤ n := by
  intro fuel
  induction fuel with
  | zero => intro s hs; exact hs
  | succ f ih =>
      intro s hs
      rw [runPassAux]
      split
      · exact hs
      · split
        · exact hs
        · cases hsel : selectIdx ro (raws s.order.length) s.order n with
          | none => exact hs
          | some idx =>
              rename_i hlen
              apply ih
              simp only [stepState, List.length_append, List.length_singleton]
              omega

/-- From any state satisfying the invariant, enough fuel drives the loop to
a state where one of the two break guards of the Python loop holds: the
loop never stops for lack of a selectable index before the guards fire. -/
theorem runPassAux_exit {sg : Bool} {quota : Int} {ro : Bool} {n : Nat}
    {act : Nat → ItemResult} {counts records : ItemResult → Bool} {raws : Nat → Nat} :
    ∀ fuel s, PassInv n act counts records s → n - s.order.length < fuel →
      quotaReached sg quota
          (runPassAux sg quota ro n act counts records raws fuel s).processed = true ∨
        n ≤ (runPassAux sg quota ro n act counts records raws fuel s).order.length := by
  intro fuel
  induction fuel with
  | zero => intro s _ hf; omega
  | succ f ih =>
      intro s hs hf
      rw [runPassAux]
      split
      · rename_i hguard
        exact Or.inl hguard
      · split
        · rename_i hlen
          exact Or.inr hlen
        · rename_i hguard hlen
          have hltn : s.order.length < n := by omega
          cases hsel : selectIdx ro (raws s.order.length) s.order n with
          | none =>
              exfalso
              have := selectIdx_isSome ro (raws s.order.length) hltn
              rw [hsel] at this
              cases this
          | some idx =>
              obtain ⟨hlt, hfresh⟩ := selectIdx_eq_some hsel
              refine ih _ (passInv_step hs hlt hfresh) ?_
              simp only [stepState, List.length_append, List.length_singleton]
              omega

/-- Fuel-insensitivity: any two fuel amounts beyond the iteration bound of
the loop produce the same final state, so the fuel n + 1 used by runPass is
a faithful rendering of the unbounded Python while loop. -/
theorem runPassAux_fuel_stable {sg : Bool} {quota : Int} {ro : Bool} {n : Nat}
    {act : Nat → ItemResult} {counts records : ItemResult → Bool} {raws : Nat → Nat} :
    ∀ fuel fuel₂ s, n - s.order.length < fuel → n - s.order.length < fuel₂ →
      runPassAux sg quota ro n act counts records raws fuel s =
        runPassAux sg quota ro n act counts records raws fuel₂ s := by
  intro fuel
  induction fuel with
  | zero => intro fuel₂ s hf _; omega
  | succ f ih =>
      intro fuel₂ s hf hf₂
      cases fuel₂ with
      | zero => omega
      | succ f₂ =>
          rw [runPassAux, runPassAux]
          split
          · rfl
          · split
            · rfl
            · rename_i hguard hlen
              have hltn : s.order.length < n := by omega
              cases hsel : selectIdx ro (raws s.order.length) s.order n with
              | none => rfl
              | some idx =>
                  apply ih
                  all_goals
                    simp only [stepState, List.length_append, List.length_singleton]
                  · omega
                  · omega

/-! Sequential selection picks the lowest unused index. -/

theorem seqFirst_range {k n : Nat} (h : k < n) : seqFirst (List.range k) n = some k := by
  induction n with
  | zero => omega
  | succ m ih =>
      unfold seqFirst at ih ⊢
      rw [List.range_succ, List.filter_append]
      by_cases hk : k < m
      · rw [List.head?_append, ih hk]
        rfl
      · have hkm : k = m := by omega
        subst hkm
        have h1 : (List.range k).filter (fun i => !(List.range k).contains i) = [] := by
          apply List.filter_eq_nil_iff.mpr
          intro a ha
          simp only [Bool.not_eq_true', Bool.not_eq_false]
          exact (contains_eq_mem _ _).mpr ha
        have h2 : [k].filter (fun i => !(List.range k).contains i) = [k] := by
          have : (List.range k).contains k = false := by
            rcases hc : (List.range k).contains k with _ | _
            · rfl
            · have := (contains_eq_mem _ _).mp hc
              rw [List.mem_range] at this
              omega
          simp [List.filter_singleton, this]
        rw [h1, h2]
        rfl

theorem runPassAux_seq {sg : Bool} {quota : Int} {n : Nat}
    {act : Nat → ItemResult} {counts records : ItemResult → Bool} {raws : Nat → Nat} :
    ∀ fuel s, s.order = List.range s.order.length →
      (runPassAux sg quota false n act counts records raws fuel s).order =
        List.range
          (runPassAux sg quota false n act counts records raws fuel s).order.length := by
  intro fuel
  induction fuel with
  | zero => intro s hs; exact hs
  | succ f ih =>
      intro s hs
      rw [runPassAux]
      split
      · exact hs
      · split
        · exact hs
        · rename_i hguard hlen
          have hltn : s.order.length < n := by omega
          have hsel : selectIdx false (raws s.order.length) s.order n =
              some s.order.length := by
            unfold selectIdx
            simp only [Bool.false_and, Bool.false_eq_true, if_false]
            rw [hs, List.length_range]
            exact seqFirst_range hltn
          rw [hsel]
          apply ih
          simp only [stepState, List.length_append, List.length_singleton]
          conv_lhs => rw [hs]
          simp [List.length_range, List.range_succ]

/-! Consequences at the runPass level. -/

theorem quotaReached_true {sg : Bool} {quota : Int} {p : Nat}
    (h : quotaReached sg quota p = true) : quota ≤ (p : Int) := by
  cases sg <;>
    simp only [quotaReached, Bool.and_eq_true, decide_eq_true_eq] at h
  · exact h
  · exact h.2

theorem quotaReached_nonpos {quota : Int} {p : Nat} (hq : quota ≤ 0) :
    quotaReached true quota p = false := by
  simp only [quotaReached, Bool.and_eq_false_iff, decide_eq_false_iff_not]
  left
  omega

theorem runPass_inv (sg : Bool) (quota : Int) (ro : Bool) (n : Nat)
    (act : Nat → ItemResult) (counts records : ItemResult → Bool) (raws : Nat → Nat) :
    PassInv n act counts records (runPass sg quota ro n act counts records raws) :=
  runPassAux_inv (n + 1) ⟨[], 0, []⟩ (passInv_start n act counts records)

theorem runPass_length_le (sg : Bool) (quota : Int) (ro : Bool) (n : Nat)
    (act : Nat → ItemResult) (counts records : ItemResult → Bool) (raws : Nat → Nat) :
    (runPass sg quota ro n act counts records raws).order.length ≤ n :=
  runPassAux_length_le (n + 1) ⟨[], 0, []⟩ (Nat.zero_le n)

theorem runPass_exit (sg : Bool) (quota : Int) (ro : Bool) (n : Nat)
    (act : Nat → ItemResult) (counts records : ItemResult → Bool) (raws : Nat → Nat) :
    quotaReached sg quota (runPass sg quota ro n act counts records raws).processed =
        true ∨
      n ≤ (runPass sg quota ro n act counts records raws).order.length :=
  runPassAux_exit (n + 1) ⟨[], 0, []⟩ (passInv_start n act counts records)
    (by simp)

/-- When every attempt bumps the processed counter, the number of selected
indices at loop exit is exactly min quota n for a positive quota, and
exactly n for a nonpositive quota under the strict guard variant. -/
theorem runPass_length_of_counts (sg : Bool) (quota : Int) (ro : Bool) (n : Nat)
    (act : Nat → ItemResult) (counts records : ItemResult → Bool) (raws : Nat → Nat)
    (hAll : ∀ i, i < n → counts (act i) = true) :
    (runPass sg quota ro n act counts records raws).processed =
        (runPass sg quota ro n act counts records raws).order.length ∧
      (0 < quota →
        (runPass sg quota ro n act counts records raws).order.length =
          min quota.toNat n) ∧
      (quota ≤ 0 → sg = true →
        (runPass sg quota ro n act counts records raws).order.length = n) := by
  obtain ⟨hnd, hbound, hproc, hnew⟩ :=
    runPass_inv sg quota ro n act counts records raws
  have hlen := runPass_length_le sg quota ro n act counts records raws
  have hpl : (runPass sg quota ro n act counts records raws).processed =
      (runPass sg quota ro n act counts records raws).order.length := by
    rw [hproc]
    exact List.countP_eq_length.mpr (fun i hi => hAll i (hbound i hi))
  refine ⟨hpl, ?_, ?_⟩
  · intro hq
    have hple : (runPass sg quota ro n act counts records raws).processed ≤
        quota.toNat :=
      runPassAux_processed_le hq (n + 1) ⟨[], 0, []⟩ (Nat.zero_le _)
    rcases runPass_exit sg quota ro n act counts records raws with hreach | hfull
    · have := quotaReached_true hreach
      omega
    · omega
  · intro hq hsg
    subst hsg
    rcases runPass_exit true quota ro n act counts records raws with hreach | hfull
    · rw [quotaReached_nonpos hq] at hreach
      cases hreach
    · omega

/-! Claim theorems. -/

/-- Claim C1: for every candidate list of size n and every quota, one
selection pass yields a processed count with processed ≤ min quota n when
the quota is positive and processed ≤ n when it is not, for every sequence
of per-item action outcomes, in both quota-guard variants of the loop. -/
theorem selection_pass_quota_bound (sg : Bool) (quota : Int) (ro : Bool) (n : Nat)
    (act : Nat → ItemResult) (counts records : ItemResult → Bool) (raws : Nat → Nat) :
    (runPass sg quota ro n act counts records raws).processed ≤
      if 0 < quota then min quota.toNat n else n := by
  obtain ⟨hnd, hbound, hproc, hnew⟩ :=
    runPass_inv sg quota ro n act counts records raws
  have hlen := runPass_length_le sg quota ro n act counts records raws
  have hpn : (runPass sg quota ro n act counts records raws).processed ≤ n := by
    rw [hproc]
    exact le_trans (List.countP_le_length _) hlen
  by_cases hq : 0 < quota
  · rw [if_pos hq]
    have hple : (runPass sg quota ro n act counts records raws).processed ≤
        quota.toNat :=
      runPassAux_processed_le hq (n + 1) ⟨[], 0, []⟩ (Nat.zero_le _)
    omega
  · rw [if_neg hq]
    exact hpn

/-- Claim C2: within one selection pass no candidate index is ever selected
twice, and, assuming every attempt bumps the processed counter (in
particular when every action succeeds), the selected index set has size
min quota n for a positive quota and size n for a nonpositive quota under
the strict guard variant (the plain-guard loop of src/missing/artist.py is
only entered with a positive quota, line 30). -/
theorem selection_without_replacement (sg : Bool) (quota : Int) (ro : Bool) (n : Nat)
    (act : Nat → ItemResult) (counts records : ItemResult → Bool) (raws : Nat → Nat) :
    (runPass sg quota ro n act counts records raws).order.Nodup ∧
      ((∀ i, i < n → counts (act i) = true) →
        (0 < quota →
          (runPass sg quota ro n act counts records raws).order.length =
            min quota.toNat n) ∧
        (quota ≤ 0 → sg = true →
          (runPass sg quota ro n act counts records raws).order.length = n)) := by
  obtain ⟨hnd, _, _, _⟩ := runPass_inv sg quota ro n act counts records raws
  refine ⟨hnd, fun hAll => ?_⟩
  obtain ⟨_, h1, h2⟩ :=
    runPass_length_of_counts sg quota ro n act counts records raws hAll
  exact ⟨h1, h2⟩

/-- Witness for selection_without_replacement: two candidates, quota one,
sequential order, all actions succeed. -/
theorem selection_without_replacement_witness :
    (runPass true 1 false 2 (fun _ => ⟨true, true, true⟩) missingCounts
          missingArtistRecords (fun _ => 0)).order.Nodup ∧
      ((∀ i, i < 2 →
          missingCounts ((fun _ => (⟨true, true, true⟩ : ItemResult)) i) = true) →
        (0 < (1 : Int) →
          (runPass true 1 false 2 (fun _ => ⟨true, true, true⟩) missingCounts
              missingArtistRecords (fun _ => 0)).order.length =
            min (Int.toNat 1) 2) ∧
        ((1 : Int) ≤ 0 → true = true →
          (runPass true 1 false 2 (fun _ => ⟨true, true, true⟩) missingCounts
              missingArtistRecords (fun _ => 0)).order.length = 2)) :=
  selection_without_replacement true 1 false 2 (fun _ => ⟨true, true, true⟩)
    missingCounts missingArtistRecords (fun _ => 0)

/-- Claim C3 counterexample: in the artist-missing pass an attempt whose
refresh is acknowledged but whose search and fallback are both
unacknowledged is a SoftFail in the sense of the specification, yet the
processed counter is incremented to 1 rather than left unchanged. -/
theorem processed_increment_on_softfail_cex :
    (runPass false 1 false 1 (fun _ => ⟨true, false, false⟩) missingCounts
          missingArtistRecords (fun _ => 0)).processed = 1 ∧
      specSuccess ⟨true, false, false⟩ = false := by
  exact ⟨by decide, by decide⟩

/-- Claim C3 amended: in the missing flows the processed counter counts
exactly the selected attempts whose refresh command was acknowledged
(regardless of search outcome), while in the upgrade flows it counts
exactly the attempts whose refresh and search were both acknowledged; in
either case every selected candidate is marked used exactly once. -/
theorem processed_counting_rule (sg : Bool) (quota : Int) (ro : Bool) (n : Nat)
    (act : Nat → ItemResult) (records : ItemResult → Bool) (raws : Nat → Nat) :
    ((runPass sg quota ro n act missingCounts records raws).processed =
        (runPass sg quota ro n act missingCounts records raws).order.countP
          (fun i => (act i).refreshAck) ∧
      (runPass sg quota ro n act missingCounts records raws).order.Nodup) ∧
      ((runPass sg quota ro n act upgradeCounts records raws).processed =
        (runPass sg quota ro n act upgradeCounts records raws).order.countP
          (fun i => (act i).refreshAck && (act i).searchAck) ∧
      (runPass sg quota ro n act upgradeCounts records raws).order.Nodup) := by
  obtain ⟨hnd₁, _, hproc₁, _⟩ :=
    runPass_inv sg quota ro n act missingCounts records raws
  obtain ⟨hnd₂, _, hproc₂, _⟩ :=
    runPass_inv sg quota ro n act upgradeCounts records raws
  exact ⟨⟨hproc₁, hnd₁⟩, ⟨hproc₂, hnd₂⟩⟩

/-- Claim C4 counterexample: sequential selection with quota 1 over two
candidates where the first refresh fails selects the sequence [0, 1], not
the input order restricted to the first min quota n = 1 items. -/
theorem sequential_restriction_cex :
    (runPass true 1 false 2
          (fun i => if i = 0 then ⟨false, false, false⟩ else ⟨true, true, false⟩)
          missingCounts noRecords (fun _ => 0)).order = [0, 1] ∧
      ([0, 1] : List Nat) ≠ List.range (min (Int.toNat 1) 2) := by
  exact ⟨by decide, by decide⟩

/-- Claim C4 amended: with random selection off the selected sequence is
always an initial segment of the input order (deterministic and
order-preserving), and its length is exactly min quota n when the quota is
positive and every attempt bumps the processed counter (in particular when
every action succeeds); failing attempts make the segment longer, up to n. -/
theorem sequential_selection_order (sg : Bool) (quota : Int) (n : Nat)
    (act : Nat → ItemResult) (counts records : ItemResult → Bool) (raws : Nat → Nat) :
    (runPass sg quota false n act counts records raws).order =
        List.range (runPass sg quota false n act counts records raws).order.length ∧
      ((∀ i, i < n → counts (act i) = true) → 0 < quota →
        (runPass sg quota false n act counts records raws).order.length =
          min quota.toNat n) := by
  constructor
  · exact runPassAux_seq (n + 1) ⟨[], 0, []⟩ rfl
  · intro hAll hq
    exact (runPass_length_of_counts sg quota false n act counts records raws
      hAll).2.1 hq

/-- Witness for sequential_selection_order: three candidates, quota two,
all actions succeed; the selected sequence is the first two indices. -/
theorem sequential_selection_order_witness :
    (runPass true 2 false 3 (fun _ => ⟨true, true, false⟩) upgradeCounts
          noRecords (fun _ => 0)).order =
        List.range (runPass true 2 false 3 (fun _ => ⟨true, true, false⟩)
          upgradeCounts noRecords (fun _ => 0)).order.length ∧
      ((∀ i, i < 3 → upgradeCounts ((fun _ => (⟨true, true, false⟩ : ItemResult)) i) =
          true) → 0 < (2 : Int) →
        (runPass true 2 false 3 (fun _ => ⟨true, true, false⟩) upgradeCounts
            noRecords (fun _ => 0)).order.length = min (Int.toNat 2) 3) :=
  sequential_selection_order true 2 3 (fun _ => ⟨true, true, false⟩)
    upgradeCounts noRecords (fun _ => 0)

/-- Claim C5 counterexample: quota 0 with one incomplete, monitored,
all-successful candidate makes process_artists_missing return the input
dedup list unchanged (the pass is skipped entirely, src/missing/artist.py
lines 29-32), while the same candidate is processed when the quota is 1;
the selection loop is not run unbounded for a nonpositive quota in this
mode. -/
theorem quota_nonpos_skip_cex :
    process_artists_missing 0 false true [] (some [⟨5, true, 3, 1⟩])
        (fun _ => ⟨true, true, true⟩) (fun _ => 0) = [] ∧
      process_artists_missing 1 false true [] (some [⟨5, true, 3, 1⟩])
        (fun _ => ⟨true, true, true⟩) (fun _ => 0) = [5] := by
  exact ⟨by decide, by decide⟩

/-- Claim C5 amended: a nonpositive quota disables the quota guard and the
pass is limited only by the candidate count in the strict-guard loops
(src/huntarr.py and the upgrade modules): under always-successful actions
all n candidates are selected and processed.  In src/missing/artist.py
(and src/missing/album.py) a nonpositive quota instead skips the pass
entirely, returning the dedup list unchanged. -/
theorem quota_nonpos_behavior (quota : Int) (ro : Bool) (n : Nat)
    (act : Nat → ItemResult) (counts records : ItemResult → Bool) (raws : Nat → Nat)
    (hq : quota ≤ 0) (hAll : ∀ i, i < n → counts (act i) = true) :
    (runPass true quota ro n act counts records raws).order.length = n ∧
      (runPass true quota ro n act counts records raws).processed = n ∧
      ∀ (ro₂ mo : Bool) (pa : List Int) (fetch : Option (List Artist))
        (act₂ : Nat → ItemResult) (raws₂ : Nat → Nat),
        process_artists_missing quota ro₂ mo pa fetch act₂ raws₂ = pa := by
  obtain ⟨hpl, _, h2⟩ :=
    runPass_length_of_counts true quota ro n act counts records raws hAll
  have hlen := h2 hq rfl
  refine ⟨hlen, by rw [hpl, hlen], ?_⟩
  intro ro₂ mo pa fetch act₂ raws₂
  unfold process_artists_missing
  rw [if_pos hq]

/-- Witness for quota_nonpos_behavior: quota 0 over two always-successful
candidates. -/
theorem quota_nonpos_behavior_witness :
    (runPass true 0 false 2 (fun _ => ⟨true, true, true⟩) upgradeCounts
          noRecords (fun _ => 0)).order.length = 2 ∧
      (runPass true 0 false 2 (fun _ => ⟨true, true, true⟩) upgradeCounts
          noRecords (fun _ => 0)).processed = 2 ∧
      ∀ (ro₂ mo : Bool) (pa : List Int) (fetch : Option (List Artist))
        (act₂ : Nat → ItemResult) (raws₂ : Nat → Nat),
        process_artists_missing 0 ro₂ mo pa fetch act₂ raws₂ = pa :=
  quota_nonpos_behavior 0 false 2 (fun _ => ⟨true, true, true⟩) upgradeCounts
    noRecords (fun _ => 0) (by decide) (by decide)

/-- Acknowledgement oracle for the C6 counterexample: refresh and the
artist-level AlbumSearch would be acknowledged, the album-specific
AlbumSearch would not. -/
def ackAlbumCex : Command → Bool
  | .refreshArtist _ => true
  | .albumSearchByArtist _ => true
  | _ => false

/-- Claim C6 counterexample: with the album-specific AlbumSearch for album
7 unacknowledged and the artist-level AlbumSearch for artist 3
acknowledged, the album-missing workflow issues no fallback command at all
and reports SoftFail, not Success. -/
theorem album_fallback_cex :
    (albumAttempt ackAlbumCex 3 7).success = false ∧
      Command.albumSearchByArtist 3 ∉ (albumAttempt ackAlbumCex 3 7).commands ∧
      ackAlbumCex (.albumSearchByArtist 3) = true := by
  exact ⟨by decide, by decide, by decide⟩

/-- Claim C6 amended: the fallback exists only in the artist-missing flow:
there, when the artist-level MissingAlbumSearch is unacknowledged after an
acknowledged refresh, exactly one fallback artist-level AlbumSearch is
issued and the action reports Success precisely when the fallback is
acknowledged; the album-missing flow never issues an artist-level
AlbumSearch and reports the primary album-specific search outcome with no
fallback. -/
theorem fallback_only_artist_flow (ack : Command → Bool) (artistId albumId : Int)
    (h1 : ack (.refreshArtist artistId) = true)
    (h2 : ack (.missingAlbumSearch artistId) = false) :
    (artistAttempt ack artistId).commands =
        [.refreshArtist artistId, .missingAlbumSearch artistId,
          .albumSearchByArtist artistId] ∧
      (artistAttempt ack artistId).success = ack (.albumSearchByArtist artistId) ∧
      (∀ x : Int,
        Command.albumSearchByArtist x ∉ (albumAttempt ack artistId albumId).commands) ∧
      (albumAttempt ack artistId albumId).success =
        ack (.albumSearchByAlbum albumId) := by
  refine ⟨?_, ?_, ?_, ?_⟩
  · unfold artistAttempt
    rw [h1, h2]
    rfl
  · unfold artistAttempt
    rw [h1, h2]
    rfl
  · intro x
    unfold albumAttempt
    rw [h1]
    simp
  · unfold albumAttempt
    rw [h1]
    rfl

/-- Witness for fallback_only_artist_flow: refresh acknowledged, primary
MissingAlbumSearch unacknowledged, fallback acknowledged. -/
theorem fallback_only_artist_flow_witness :
    (artistAttempt ackAlbumCex 3).commands =
        [.refreshArtist 3, .missingAlbumSearch 3, .albumSearchByArtist 3] ∧
      (artistAttempt ackAlbumCex 3).success = ackAlbumCex (.albumSearchByArtist 3) ∧
      (∀ x : Int,
        Command.albumSearchByArtist x ∉ (albumAttempt ackAlbumCex 3 7).commands) ∧
      (albumAttempt ackAlbumCex 3 7).success =
        ackAlbumCex (.albumSearchByAlbum 7) :=
  fallback_only_artist_flow ackAlbumCex 3 7 (by decide) (by decide)

/-- Claim C7 counterexample: an album that is monitored, fully on disk and
flagged qualityCutoffNotMet is reported as needing an upgrade even though
its quality-profile id is absent and the profile mapping is empty; the
album evaluator consults the flag before resolving the profile. -/
theorem album_upgrade_unknown_profile_cex :
    album_needs_upgrade true ⟨true, 1, 2, 2, true, none, false, none⟩ [] = true := by
  decide

/-- Claim C7 amended: the track evaluator returns false whenever the
quality-profile id is absent or unknown to the supplied mapping; the album
evaluator does so only when additionally its qualityCutoffNotMet flag is
unset, because the flag is consulted before profile resolution and forces
true on its own. -/
theorem needs_upgrade_unknown_profile (track : TrackRec) (album : AlbumRec)
    (monitoredOnly : Bool) (profiles : List (Int × QualityProfile))
    (htrack : ∀ pid, track.qualityProfileId = some pid →
      lookupProfile pid profiles = none)
    (halbum : ∀ pid, album.qualityProfileId = some pid →
      lookupProfile pid profiles = none)
    (hflag : album.qualityCutoffNotMet = false) :
    track_needs_upgrade track profiles = false ∧
      album_needs_upgrade monitoredOnly album profiles = false := by
  constructor
  · unfold track_needs_upgrade
    split
    · rfl
    · cases hpid : track.qualityProfileId with
      | none => rfl
      | some pid => simp [htrack pid hpid]
  · unfold album_needs_upgrade
    split
    · rfl
    · split
      · rfl
      · split
        · rfl
        · rw [hflag]
          simp only [Bool.false_eq_true, if_false]
          cases hpid : album.qualityProfileId with
          | none => rfl
          | some pid => simp [halbum pid hpid]

/-- Witness for needs_upgrade_unknown_profile: a track and an unflagged
album whose profile ids are unknown to a singleton profile mapping. -/
theorem needs_upgrade_unknown_profile_witness :
    track_needs_upgrade ⟨true, some 9, some 1⟩ [(4, ⟨some 5⟩)] = false ∧
      album_needs_upgrade true ⟨true, 1, 2, 2, false, some 9, true, some 1⟩
        [(4, ⟨some 5⟩)] = false :=
  needs_upgrade_unknown_profile ⟨true, some 9, some 1⟩
    ⟨true, 1, 2, 2, false, some 9, true, some 1⟩ true [(4, ⟨some 5⟩)]
    (by decide) (by decide) (by decide)

/-- Claim C8: when the reset interval is positive and more than the
interval has elapsed since the recorded reset instant, loading-time reset
clears both processed lists and stamps the current instant in the same
update; when the interval is nonpositive the loaded state is returned
verbatim regardless of elapsed time. -/
theorem check_reset_state_epoch (intervalHours now t : Int) (s : AppState)
    (hdt : s.last_reset_time = TimeVal.dt t) :
    (0 < intervalHours → 3600 * intervalHours < now - t →
        check_reset_state intervalHours now s =
          .ok ⟨[], [], .dt now⟩) ∧
      (intervalHours ≤ 0 → check_reset_state intervalHours now s = .ok s) := by
  constructor
  · intro h1 h2
    unfold check_reset_state
    rw [if_neg (by omega), hdt]
    simp only [dtSub]
    rw [if_pos h2]
  · intro h1
    unfold check_reset_state
    rw [if_pos h1]

/-- Witness for check_reset_state_epoch: interval 168 hours, last reset
700000 seconds before now. -/
theorem check_reset_state_epoch_witness :
    (0 < (168 : Int) → 3600 * 168 < (700000 : Int) - 0 →
        check_reset_state 168 700000 ⟨[1], [2], .dt 0⟩ =
          .ok ⟨[], [], .dt 700000⟩) ∧
      ((168 : Int) ≤ 0 →
        check_reset_state 168 700000 ⟨[1], [2], .dt 0⟩ = .ok ⟨[1], [2], .dt 0⟩) :=
  check_reset_state_epoch 168 700000 0 ⟨[1], [2], .dt 0⟩ rfl

/-- Claim C9, code bug witnessed on the code: with the default reset
interval of 168 hours, a missing state file (and likewise a corrupt one)
makes load_state store the fresh reset instant as an ISO string, and the
subtraction in check_reset_state then raises a TypeError instead of
completing with a fresh state; the intended never-fatal fresh start only
happens when the reset interval is nonpositive. -/
theorem state_missing_file_type_error :
    check_reset_state 168 1000 (load_state false true ⟨[], [], 0⟩ 1000) =
        .error "TypeError: unsupported operand type for datetime minus str" ∧
      check_reset_state 168 1000 (load_state true false ⟨[], [], 0⟩ 1000) =
        .error "TypeError: unsupported operand type for datetime minus str" ∧
      load_state false true ⟨[], [], 0⟩ 1000 = ⟨[], [], .str 1000⟩ := by
  exact ⟨rfl, rfl, rfl⟩

/-- Claim C10: process_artists_missing returns the input dedup list
extended, never shrunk, and every appended artist id is the id of a
candidate whose attempt had its MissingAlbumSearch or fallback AlbumSearch
acknowledged after an acknowledged refresh; candidates whose attempts all
failed are not recorded. -/
theorem process_artists_missing_extends (quota : Int) (ro mo : Bool)
    (pa : List Int) (fetch : Option (List Artist))
    (act : Nat → ItemResult) (raws : Nat → Nat) :
    ∃ t, process_artists_missing quota ro mo pa fetch act raws = pa ++ t ∧
      ∀ id ∈ t, ∃ i, i < (incompleteArtists mo pa (fetch.getD [])).length ∧
        ((incompleteArtists mo pa (fetch.getD [])).getD i defaultArtist).id = id ∧
        missingArtistRecords (act i) = true := by
  by_cases hq : quota ≤ 0
  · refine ⟨[], ?_, fun id hid => absurd hid (List.not_mem_nil id)⟩
    simp [process_artists_missing, hq]
  · cases fetch with
    | none =>
        refine ⟨[], ?_, fun id hid => absurd hid (List.not_mem_nil id)⟩
        simp [process_artists_missing, hq]
    | some artists =>
        by_cases he : (incompleteArtists mo pa artists).isEmpty = true
        · refine ⟨[], ?_, fun id hid => absurd hid (List.not_mem_nil id)⟩
          simp [process_artists_missing, hq, he]
        · refine ⟨(runPass false quota ro (incompleteArtists mo pa artists).length act
              missingCounts missingArtistRecords raws).newly.map
                (fun i => ((incompleteArtists mo pa artists).getD i defaultArtist).id),
            ?_, ?_⟩
          · simp [process_artists_missing, hq, he]
          · intro id hid
            rw [List.mem_map] at hid
            obtain ⟨i, hmem, hi⟩ := hid
            obtain ⟨_, hbound, _, hnew⟩ :=
              runPass_inv false quota ro
                (incompleteArtists mo pa artists).length act missingCounts
                missingArtistRecords raws
            rw [hnew, List.mem_filter] at hmem
            exact ⟨i, hbound i hmem.1, hi, hmem.2⟩

/-- Witness for process_artists_missing_extends at a concrete input with
one successful candidate. -/
theorem process_artists_missing_extends_witness :
    ∃ t, process_artists_missing 1 false true [9] (some [⟨9, true, 3, 1⟩, ⟨5, true, 3, 1⟩])
        (fun _ => ⟨true, true, false⟩) (fun _ => 0) = [9] ++ t ∧
      ∀ id ∈ t, ∃ i,
        i < (incompleteArtists true [9]
          ((some [(⟨9, true, 3, 1⟩ : Artist), ⟨5, true, 3, 1⟩]).getD [])).length ∧
        ((incompleteArtists true [9]
            ((some [(⟨9, true, 3, 1⟩ : Artist), ⟨5, true, 3, 1⟩]).getD [])).getD i
          defaultArtist).id = id ∧
        missingArtistRecords ((fun _ => (⟨true, true, false⟩ : ItemResult)) i) = true :=
  process_artists_missing_extends 1 false true [9]
    (some [⟨9, true, 3, 1⟩, ⟨5, true, 3, 1⟩]) (fun _ => ⟨true, true, false⟩)
    (fun _ => 0)

end Huntarr
